import Mathlib

/-
Verification of the row-stream bindings (src/bindings/rust/src/rows.rs).

The file shallowly embeds the Rust module: Row, its addressing trait
RowIndex, the value conversion in Row::get_value and Row::get, the
FromIterator construction, and the single-step poll in Rows::next.
The execution engine (turso_core::Statement) lives outside this crate;
it is modelled from the boundary contract in the design document as a
scripted engine. Fallible Rust calls land in RResult, which has an
explicit case for a Rust panic (out-of-bounds slice indexing).
-/

namespace TursoRows

/-- Bit pattern of a 64-bit float. The bindings layer only copies float
payloads, never computes with them, so the payload is carried opaquely
as its bits. -/
structure F64 where
  bits : Nat
  deriving DecidableEq, Repr

/-- Engine-native value (turso_core::Value) as consumed by rows.rs:
Integer, Null, Float, Text, Blob. -/
inductive CoreValue where
  | integer (i : Int)
  | null
  | float (f : F64)
  | text (s : String)
  | blob (b : List Nat)
  deriving DecidableEq, Repr

/-- Public value model (crate::Value): Null, Integer, Real, Text, Blob. -/
inductive Value where
  | null
  | integer (i : Int)
  | real (f : F64)
  | text (s : String)
  | blob (b : List Nat)
  deriving DecidableEq, Repr

/-- Error variants of crate::Error reachable from rows.rs. Message payloads
carry the formatted text the code attaches. -/
inductive Error where
  | mutexError (msg : String)
  | sqlExecutionFailure (msg : String)
  | invalidColumnName (name : String)
  | invalidColumnIndex (idx : Nat)
  | conversionFailure (msg : String)
  | otherError (msg : String)
  deriving DecidableEq, Repr

/-- Outcome of a fallible Rust computation: Ok, Err, or a Rust panic
(the latter produced here only by out-of-bounds slice indexing). -/
inductive RResult (α : Type) where
  | ok (a : α)
  | err (e : Error)
  | panicked
  deriving DecidableEq, Repr

/-- Query result row: ordered decoded values and ordered column names. -/
structure Row where
  values : List CoreValue
  names : List String
  deriving DecidableEq, Repr

/-- Row::column_count returns values.len(). -/
def Row.column_count (r : Row) : Nat := r.values.length

/-- Row::column_index: first position in names whose entry equals the
queried name (iter().position), else InvalidColumnName; then the
defensive re-check written in the source as strict comparison
idx > column_count(), failing with InvalidColumnIndex when it trips. -/
def Row.column_index (r : Row) (name : String) : RResult Nat :=
  match r.names.findIdx? (fun n => n == name) with
  | none => .err (.invalidColumnName name)
  | some idx =>
    if idx > r.column_count then .err (.invalidColumnIndex idx)
    else .ok idx

/-- Trait RowIndex: resolve an index value against a row to a position. -/
class RowIndex (I : Type) where
  idx : I → Row → RResult Nat

/-- impl RowIndex for usize: out of range iff the position is not below
column_count(). -/
instance instRowIndexNat : RowIndex Nat where
  idx i r := if i ≥ r.column_count then .err (.invalidColumnIndex i) else .ok i

/-- impl RowIndex for str: delegate to Row::column_index. -/
instance instRowIndexString : RowIndex String where
  idx s r := r.column_index s

/-- Row::get_value: resolve the index, then read values[idx] (Rust slice
indexing, which panics when idx is not below the length) and map the
engine-native value to the matching public Value variant, copying text
and blob payloads. -/
def Row.get_value {I : Type} [RowIndex I] (r : Row) (i : I) : RResult Value :=
  match RowIndex.idx i r with
  | .err e => .err e
  | .panicked => .panicked
  | .ok idx =>
    match r.values.get? idx with
    | none => .panicked
    | some (.integer n) => .ok (.integer n)
    | some .null => .ok .null
    | some (.float f) => .ok (.real f)
    | some (.text s) => .ok (.text s)
    | some (.blob b) => .ok (.blob b)

/-- Dictionary for the trait turso_core::types::FromValue: from_sql
decodes an engine-native value into T or fails with an error message.
The instances live in turso_core, outside this crate. -/
structure FromValue (T : Type) where
  from_sql : CoreValue → Except String T

/-- Modelled from the spec: the integer FromValue instance from
turso_core (not under src/). Per the design document, decode-as-T yields
the host value exactly for the matching kind and fails with a conversion
error describing the kind mismatch otherwise, never a silent default. -/
def fromValueInt : FromValue Int where
  from_sql v :=
    match v with
    | .integer n => .ok n
    | _ => .error "value is not an integer"

/-- Row::get: resolve the index, read values[idx] (panics when out of
range), then decode a clone of the value via T::from_sql, mapping any
decode failure to Error::ConversionFailure of the formatted message. -/
def Row.get {I T : Type} [RowIndex I] (fv : FromValue T) (r : Row) (i : I) :
    RResult T :=
  match RowIndex.idx i r with
  | .err e => .err e
  | .panicked => .panicked
  | .ok idx =>
    match r.values.get? idx with
    | none => .panicked
    | some v =>
      match fv.from_sql v with
      | .ok t => .ok t
      | .error msg => .err (.conversionFailure msg)

/-- impl FromIterator for Row: clone each engine value in order and leave
the names list empty. -/
def Row.from_values (vs : List CoreValue) : Row :=
  { values := vs.map (fun v =>
      match v with
      | .integer n => CoreValue.integer n
      | .null => CoreValue.null
      | .float f => CoreValue.float f
      | .text s => CoreValue.text s
      | .blob b => CoreValue.blob b),
    names := [] }

/-- Modelled from the spec: result of one advance-one-step call of the
engine (boundary contract): Row-ready with the current row readable
immediately afterwards, Finished, Must-suspend pending I/O, Busy, or
Interrupted. -/
inductive StepResult where
  | rowReady (vals : List CoreValue)
  | finished
  | ioNeeded
  | busy
  | interrupted
  deriving DecidableEq, Repr

/-- Outcome of one drive-pending-I/O-once (run_once) call, which per the
boundary contract may itself fail. -/
inductive DriveOutcome where
  | success
  | failure (msg : String)
  deriving DecidableEq, Repr

/-- Modelled from the spec: a scripted execution engine standing for the
mutex-guarded turso_core::Statement (outside src/). script holds the
successive advance-one-step results; ioResults the successive run_once
outcomes; columns the static column names; poisoned whether the guarding
mutex is poisoned. stepCalls and runOnceCalls count the engine calls
made, to state call-count properties. -/
structure Engine where
  script : List StepResult
  ioResults : List DriveOutcome
  columns : List String
  poisoned : Bool
  stepCalls : Nat
  runOnceCalls : Nat
  deriving DecidableEq, Repr

/-- Statement::step_with_waker: consume and return the next scripted step
result, counting the call. -/
def Engine.step (e : Engine) : StepResult × Engine :=
  (e.script.headD .finished,
   { e with script := e.script.tail, stepCalls := e.stepCalls + 1 })

/-- Statement::run_once: consume and return the next scripted drive
outcome, counting the call. -/
def Engine.runOnce (e : Engine) : DriveOutcome × Engine :=
  (e.ioResults.headD .success,
   { e with ioResults := e.ioResults.tail, runOnceCalls := e.runOnceCalls + 1 })

/-- Statement::num_columns. -/
def Engine.num_columns (e : Engine) : Nat := e.columns.length

/-- Statement::get_column_name. -/
def Engine.get_column_name (e : Engine) (i : Nat) : String :=
  e.columns.getD i ""

/-- Result of one poll: Ready with an output, or Pending. -/
inductive Poll (α : Type) where
  | ready (a : α)
  | pending
  deriving DecidableEq, Repr

/-- Next::poll from Rows::next. Lock the statement mutex (a poisoned
guard maps to Error::MutexError and completes the poll), perform exactly
one step_with_waker, then interpret the result: Row builds a Row from
the current row values plus the column names read back per index;
Done completes with none; IO performs one run_once and returns Pending,
a failing run_once propagating as an error; Busy and Interrupt complete
with SqlExecutionFailure. -/
def pollNext (e : Engine) : Poll (Except Error (Option Row)) × Engine :=
  if e.poisoned then
    (.ready (.error (.mutexError "poisoned lock")), e)
  else
    match Engine.step e with
    | (.rowReady vals, e1) =>
      (.ready (.ok (some
        { values := vals,
          names := (List.range e1.num_columns).map
            (fun i => e1.get_column_name i) })), e1)
    | (.finished, e1) => (.ready (.ok none), e1)
    | (.ioNeeded, e1) =>
      match Engine.runOnce e1 with
      | (.success, e2) => (.pending, e2)
      | (.failure msg, e2) => (.ready (.error (.otherError msg)), e2)
    | (.busy, e1) =>
      (.ready (.error (.sqlExecutionFailure "database is locked")), e1)
    | (.interrupted, e1) =>
      (.ready (.error (.sqlExecutionFailure "interrupted")), e1)

/-- Read-only method calls on a Row, for stating frame properties. -/
inductive ReadOp where
  | valueAt (i : Nat)
  | valueNamed (s : String)
  | decodeIntAt (i : Nat)
  | decodeIntNamed (s : String)
  deriving DecidableEq, Repr

/-- Result of one read-only method call. -/
inductive ReadResult where
  | value (v : RResult Value)
  | decoded (t : RResult Int)
  deriving DecidableEq, Repr

/-- One read-only method call on a Row. Each of these methods takes the
row by shared borrow, and Row::get decodes a clone of the stored value,
so the row state threads through unchanged. -/
def runRead (r : Row) (op : ReadOp) : ReadResult × Row :=
  match op with
  | .valueAt i => (.value (r.get_value i), r)
  | .valueNamed s => (.value (r.get_value s), r)
  | .decodeIntAt i => (.decoded (Row.get fromValueInt r i), r)
  | .decodeIntNamed s => (.decoded (Row.get fromValueInt r s), r)

/-- Run a sequence of read-only method calls, threading the row state. -/
def runReads (r : Row) : List ReadOp → List ReadResult × Row
  | [] => ([], r)
  | op :: rest =>
    let step1 := runRead r op
    let rest1 := runReads step1.2 rest
    (step1.1 :: rest1.1, rest1.2)

/-- Row well-formedness as stated by the design document: names is empty
or has the same length as values. -/
def Row.wf (r : Row) : Prop :=
  r.names = [] ∨ r.names.length = r.values.length

/-- C1 failing input: a Row whose names list is one longer than its
values list, with the queried name sitting at position column_count. -/
def rowBad : Row := { values := [.integer 7], names := ["a", "b"] }

/-- Concrete row used by the name-lookup and kind-conversion witnesses. -/
def row3 : Row :=
  { values := [.integer 1, .text "x", .integer 7],
    names := ["id", "name", "score"] }

/-- Concrete row holding one value of each materialized kind. -/
def rowKinds : Row :=
  { values := [.integer 42, .text "abc", .blob [1, 2, 3], .null],
    names := ["a", "b", "c", "d"] }

/-- Shape of the Row built by the poll on a Row-ready step: the current
row values plus the column names read back per index. -/
def builtRow (vals : List CoreValue) (cols : List String) : Row :=
  { values := vals,
    names := (List.range cols.length).map (fun i => cols.getD i "") }

/-- Per-poll behavior of the suspension adapter on a non-poisoned guard:
exactly one step call; a Row-ready step completes with some row without
touching run_once; a Finished step completes with none without touching
run_once; a Must-suspend step whose drive succeeds performs exactly one
run_once call and returns Pending. -/
def pollStepBehavior (e : Engine) : Prop :=
  ((pollNext e).2.stepCalls = e.stepCalls + 1) ∧
  (∀ vals rest, e.script = StepResult.rowReady vals :: rest →
    (∃ r, (pollNext e).1 = Poll.ready (Except.ok (some r))) ∧
    (pollNext e).2.runOnceCalls = e.runOnceCalls) ∧
  (∀ rest, e.script = StepResult.finished :: rest →
    (pollNext e).1 = Poll.ready (Except.ok none) ∧
    (pollNext e).2.runOnceCalls = e.runOnceCalls) ∧
  (∀ rest rest2, e.script = StepResult.ioNeeded :: rest →
    e.ioResults = DriveOutcome.success :: rest2 →
    (pollNext e).1 = Poll.pending ∧
    (pollNext e).2.runOnceCalls = e.runOnceCalls + 1)

/-- Scripted engine that reports Must-suspend once, with a succeeding
drive, and then Row-ready. -/
def engSuspendThenRow (vals : List CoreValue) (cols : List String) :
    Engine :=
  { script := [.ioNeeded, .rowReady vals], ioResults := [.success],
    columns := cols, poisoned := false, stepCalls := 0, runOnceCalls := 0 }

/-- Scenario of the design document: the scripted engine above causes
exactly one suspension, with exactly one drive call between the two poll
attempts, and the second poll completes with the row. -/
def suspendResumeScenario (vals : List CoreValue) (cols : List String) :
    Prop :=
  (pollNext (engSuspendThenRow vals cols)).1 = Poll.pending ∧
  (pollNext (engSuspendThenRow vals cols)).2.runOnceCalls = 1 ∧
  (pollNext (engSuspendThenRow vals cols)).2.stepCalls = 1 ∧
  (∃ r, (pollNext (pollNext (engSuspendThenRow vals cols)).2).1 =
    Poll.ready (Except.ok (some r))) ∧
  (pollNext (pollNext (engSuspendThenRow vals cols)).2).2.runOnceCalls = 1 ∧
  (pollNext (pollNext (engSuspendThenRow vals cols)).2).2.stepCalls = 2

/-- Scripted engine whose single step reports Busy. -/
def engBusy : Engine :=
  { script := [.busy], ioResults := [], columns := [], poisoned := false,
    stepCalls := 0, runOnceCalls := 0 }

/-- Scripted engine whose single step reports Interrupted. -/
def engInterrupted : Engine :=
  { script := [.interrupted], ioResults := [], columns := [],
    poisoned := false, stepCalls := 0, runOnceCalls := 0 }

/-- Scripted engine delivering one two-column row. -/
def engRowReady : Engine :=
  { script := [.rowReady [.integer 5, .text "x"]], ioResults := [],
    columns := ["id", "name"], poisoned := false, stepCalls := 0,
    runOnceCalls := 0 }

/-- Scripted engine behind a poisoned guard. -/
def engPoisoned : Engine :=
  { script := [.rowReady []], ioResults := [], columns := [],
    poisoned := true, stepCalls := 0, runOnceCalls := 0 }

/-- Reading back every index below the length reproduces the list. -/
lemma range_map_getD (l : List String) :
    (List.range l.length).map (fun i => l.getD i "") = l := by
  apply List.ext_getElem
  · simp
  · intro i h1 h2
    simp [List.getElem?_eq_getElem h2]

/-- A successful optional lookup comes from a position below the length. -/
lemma get?_some_get {α : Type} (l : List α) (i : Nat) (a : α)
    (h : l.get? i = some a) :
    ∃ hlt : i < l.length, l.get ⟨i, hlt⟩ = a := by
  have hlt : i < l.length := (List.get?_eq_some.mp h).1
  refine ⟨hlt, ?_⟩
  have hg := List.get?_eq_get hlt
  rw [h] at hg
  exact (Option.some.inj hg).symm

/-- Positional resolution through the usize RowIndex instance. -/
lemma idx_nat_eq (i : Nat) (r : Row) :
    RowIndex.idx i r =
      if i ≥ r.column_count then RResult.err (.invalidColumnIndex i)
      else RResult.ok i := rfl

/-- Closed form of positional get_value: in range it converts the stored
value, out of range it is the InvalidColumnIndex error. -/
lemma get_value_nat_eq (r : Row) (i : Nat) :
    Row.get_value r i =
      if h : i < r.values.length then
        match r.values.get ⟨i, h⟩ with
        | .integer n => RResult.ok (.integer n)
        | .null => RResult.ok .null
        | .float f => RResult.ok (.real f)
        | .text s => RResult.ok (.text s)
        | .blob b => RResult.ok (.blob b)
      else RResult.err (.invalidColumnIndex i) := by
  unfold Row.get_value
  rw [idx_nat_eq]
  by_cases h : i < r.values.length
  · have hg : r.values[i]? = some r.values[i] :=
      List.getElem?_eq_getElem h
    rw [if_neg (by simp only [Row.column_count]; omega), dif_pos h]
    cases hv : r.values[i] <;> simp [hg, hv]
  · rw [if_pos (by simp only [Row.column_count]; omega), dif_neg h]

/-- Closed form of positional get: in range it decodes the stored value
via from_sql, out of range it is the InvalidColumnIndex error. -/
lemma get_nat_eq {T : Type} (fv : FromValue T) (r : Row) (i : Nat) :
    Row.get fv r i =
      if h : i < r.values.length then
        match fv.from_sql (r.values.get ⟨i, h⟩) with
        | .ok t => RResult.ok t
        | .error msg => RResult.err (.conversionFailure msg)
      else RResult.err (.invalidColumnIndex i) := by
  unfold Row.get
  rw [idx_nat_eq]
  by_cases h : i < r.values.length
  · have hg : r.values[i]? = some r.values[i] :=
      List.getElem?_eq_getElem h
    rw [if_neg (by simp only [Row.column_count]; omega), dif_pos h]
    cases hv : fv.from_sql r.values[i] <;> simp [hg, hv]
  · rw [if_pos (by simp only [Row.column_count]; omega), dif_neg h]

/-- First-match characterization of findIdx? over a name list. -/
lemma findIdx?_first (name : String) (l : List String) :
    (name ∉ l → l.findIdx? (fun n => n == name) = none) ∧
    (name ∈ l → ∃ i, l.findIdx? (fun n => n == name) = some i ∧
      l.get? i = some name ∧ ∀ j, j < i → l.get? j ≠ some name) := by
  induction l with
  | nil => simp
  | cons a t ih =>
    constructor
    · intro hnm
      have hna : ¬(a == name) = true := by
        simp only [List.mem_cons, not_or] at hnm
        simp [beq_iff_eq]
        exact fun hcontra => hnm.1 hcontra.symm
      have hnt : name ∉ t := by
        simp only [List.mem_cons, not_or] at hnm
        exact hnm.2
      simp [List.findIdx?_cons, hna, ih.1 hnt]
    · intro hm
      by_cases ha : a = name
      · refine ⟨0, ?_, ?_, ?_⟩
        · simp [List.findIdx?_cons, ha]
        · simp [ha]
        · intro j hj; omega
      · have hmt : name ∈ t := by
          rcases List.mem_cons.mp hm with h1 | h2
          · exact absurd h1.symm ha
          · exact h2
        obtain ⟨i, hf, hget, hfirst⟩ := ih.2 hmt
        refine ⟨i + 1, ?_, ?_, ?_⟩
        · have hna : ¬(a == name) = true := by
            simp [beq_iff_eq]; exact ha
          simp [List.findIdx?_cons, hna, hf]
        · simpa using hget
        · intro j hj
          cases j with
          | zero =>
            simp only [List.get?]
            intro hcontra
            exact ha (Option.some.inj hcontra)
          | succ k =>
            have hk : k < i := by omega
            simpa using hfirst k hk

/-- C1: on rowBad, the name "b" resolves to position 1, which equals
column_count, so the defensive strict re-check idx > column_count does
not trip and the subsequent slice read values[1] panics, in get_value
and in get alike, instead of failing closed with InvalidColumnIndex. -/
theorem get_value_by_name_panics_past_values :
    Row.column_index rowBad "b" = RResult.ok 1 ∧
    Row.get_value rowBad "b" = RResult.panicked ∧
    Row.get fromValueInt rowBad "b" = RResult.panicked := by
  refine ⟨?_, ?_, ?_⟩ <;> rfl

/-- C4: positional access through get_value never panics, succeeds
exactly when the index is below column_count, and otherwise fails with
the InvalidColumnIndex error for that index. -/
theorem get_value_positional_bounds (r : Row) (i : Nat) :
    Row.get_value r i ≠ RResult.panicked ∧
    ((∃ v, Row.get_value r i = RResult.ok v) ↔ i < Row.column_count r) ∧
    (Row.get_value r i = RResult.err (Error.invalidColumnIndex i) ↔
      ¬ i < Row.column_count r) := by
  rw [get_value_nat_eq]
  by_cases h : i < r.values.length
  · rw [dif_pos h]
    cases hg : r.values.get ⟨i, h⟩ <;>
      simp [hg, Row.column_count, h]
  · rw [dif_neg h]
    simp [Row.column_count, h]

/-- C5: with names no longer than values (the shape of every constructed
Row), column_index returns the position of the earliest occurrence of a
present name and fails with InvalidColumnName for an absent one. -/
theorem column_index_first_match (r : Row) (name : String)
    (hle : r.names.length ≤ r.values.length) :
    (name ∉ r.names →
      Row.column_index r name = RResult.err (Error.invalidColumnName name)) ∧
    (name ∈ r.names → ∃ i, Row.column_index r name = RResult.ok i ∧
      r.names.get? i = some name ∧
      ∀ j, j < i → r.names.get? j ≠ some name) := by
  constructor
  · intro h
    unfold Row.column_index
    rw [(findIdx?_first name r.names).1 h]
  · intro h
    obtain ⟨i, hf, hget, hfirst⟩ := (findIdx?_first name r.names).2 h
    have hi : i < r.names.length := (List.get?_eq_some.mp hget).1
    refine ⟨i, ?_, hget, hfirst⟩
    unfold Row.column_index
    rw [hf]
    show (if i > r.column_count then _ else _) = _
    rw [if_neg (by simp only [Row.column_count]; omega)]

/-- Witness for C5 on row3: "name" resolves to the earliest (unique)
occurrence at position 1 and "missing" fails with InvalidColumnName. -/
theorem column_index_first_match_witness :
    (∃ i, Row.column_index row3 "name" = RResult.ok i ∧
      row3.names.get? i = some "name" ∧
      ∀ j, j < i → row3.names.get? j ≠ some "name") ∧
    Row.column_index row3 "missing" =
      RResult.err (Error.invalidColumnName "missing") :=
  ⟨(column_index_first_match row3 "name" (by decide)).2 (by decide),
   (column_index_first_match row3 "missing" (by decide)).1 (by decide)⟩

/-- C6: an in-range positional read returns exactly the Value variant
matching the stored engine-native kind, with the payload preserved. -/
theorem get_value_exact_kind (r : Row) (i : Nat) (v : CoreValue)
    (hv : r.values.get? i = some v) :
    Row.get_value r i = RResult.ok (match v with
      | .integer n => Value.integer n
      | .null => Value.null
      | .float f => Value.real f
      | .text s => Value.text s
      | .blob b => Value.blob b) := by
  obtain ⟨h, hg⟩ := get?_some_get r.values i v hv
  rw [get_value_nat_eq, dif_pos h, hg]
  cases v <;> rfl

/-- Witness for C6 on rowKinds: each stored kind comes back as exactly
the matching Value variant with equal payload. -/
theorem get_value_exact_kind_witness :
    Row.get_value rowKinds 0 = RResult.ok (Value.integer 42) ∧
    Row.get_value rowKinds 1 = RResult.ok (Value.text "abc") ∧
    Row.get_value rowKinds 2 = RResult.ok (Value.blob [1, 2, 3]) ∧
    Row.get_value rowKinds 3 = RResult.ok Value.null :=
  ⟨get_value_exact_kind rowKinds 0 (.integer 42) rfl,
   get_value_exact_kind rowKinds 1 (.text "abc") rfl,
   get_value_exact_kind rowKinds 2 (.blob [1, 2, 3]) rfl,
   get_value_exact_kind rowKinds 3 .null rfl⟩

/-- C7: whenever from_sql rejects the stored value, get surfaces the
rejection as a ConversionFailure carrying that message, never a default
value. -/
theorem get_decode_mismatch {T : Type} (fv : FromValue T) (r : Row)
    (i : Nat) (v : CoreValue) (msg : String)
    (hv : r.values.get? i = some v)
    (hf : fv.from_sql v = Except.error msg) :
    Row.get fv r i = RResult.err (Error.conversionFailure msg) := by
  obtain ⟨h, hg⟩ := get?_some_get r.values i v hv
  rw [get_nat_eq, dif_pos h, hg, hf]

/-- Witness for C7 on rowKinds: decoding the Text value at position 1 as
an integer fails with a ConversionFailure. -/
theorem get_decode_mismatch_witness :
    Row.get fromValueInt rowKinds 1 =
      RResult.err (Error.conversionFailure "value is not an integer") :=
  get_decode_mismatch fromValueInt rowKinds 1 (.text "abc")
    "value is not an integer" rfl rfl

/-- Every read-only method call leaves the row unchanged. -/
lemma runRead_snd (r : Row) (op : ReadOp) : (runRead r op).2 = r := by
  cases op <;> rfl

/-- C10: a sequence of get_value and get calls threads the row through
unchanged, and the result of any further read depends only on the
original row and the read itself, not on the reads before it — so
repeated reads at the same index agree even after a decode. -/
theorem reads_do_not_mutate (r : Row) (ops : List ReadOp) (op : ReadOp) :
    (runReads r ops).2 = r ∧
    (runReads r (ops ++ [op])).1 =
      (runReads r ops).1 ++ [(runRead r op).1] := by
  constructor
  · induction ops with
    | nil => rfl
    | cons o rest ih => simpa [runReads, runRead_snd] using ih
  · induction ops with
    | nil => simp [runReads]
    | cons o rest ih => simp [runReads, runRead_snd, ih]

/-- C2: each poll performs exactly one engine step and maps Row-ready to
completion with some row, Finished to completion with none, and
Must-suspend (with a succeeding drive) to exactly one run_once call
followed by Pending; the scripted Must-suspend-then-Row-ready engine
suspends exactly once with exactly one drive call in between. -/
theorem poll_single_step (e : Engine) (hp : e.poisoned = false)
    (vals : List CoreValue) (cols : List String) :
    pollStepBehavior e ∧ suspendResumeScenario vals cols := by
  constructor
  · refine ⟨?_, ?_, ?_, ?_⟩
    · cases hs : e.script with
      | nil => simp [pollNext, hp, Engine.step, hs]
      | cons a rest =>
        cases a with
        | rowReady v => simp [pollNext, hp, Engine.step, hs]
        | finished => simp [pollNext, hp, Engine.step, hs]
        | busy => simp [pollNext, hp, Engine.step, hs]
        | interrupted => simp [pollNext, hp, Engine.step, hs]
        | ioNeeded =>
          cases hq : e.ioResults with
          | nil =>
            simp [pollNext, hp, Engine.step, Engine.runOnce, hs, hq]
          | cons d rest2 =>
            cases d <;>
              simp [pollNext, hp, Engine.step, Engine.runOnce, hs, hq]
    · intro vals1 rest hs
      refine ⟨⟨builtRow vals1 e.columns, ?_⟩, ?_⟩ <;>
        simp [pollNext, hp, Engine.step, hs, Engine.num_columns,
          Engine.get_column_name, builtRow]
    · intro rest hs
      refine ⟨?_, ?_⟩ <;> simp [pollNext, hp, Engine.step, hs]
    · intro rest rest2 hs hq
      refine ⟨?_, ?_⟩ <;>
        simp [pollNext, hp, Engine.step, Engine.runOnce, hs, hq]
  · refine ⟨?_, ?_, ?_, ⟨builtRow vals cols, ?_⟩, ?_, ?_⟩ <;>
      simp [pollNext, engSuspendThenRow, Engine.step, Engine.runOnce,
        Engine.num_columns, Engine.get_column_name, builtRow]

/-- Witness for C2 at a concrete scripted engine. -/
theorem poll_single_step_witness :
    pollStepBehavior (engSuspendThenRow [CoreValue.integer 1] ["id"]) ∧
    suspendResumeScenario [CoreValue.integer 1] ["id"] :=
  poll_single_step (engSuspendThenRow [CoreValue.integer 1] ["id"]) rfl
    [CoreValue.integer 1] ["id"]

/-- C3: on a non-poisoned guard, a Busy step completes the poll
immediately with the locked execution failure and an Interrupted step
with the interrupted execution failure; the resulting engine state shows
exactly one step call and no further engine call of any kind (script
consumed by one, run_once counter and drive script untouched). -/
theorem poll_busy_interrupt_terminal (e : Engine) (hp : e.poisoned = false) :
    (∀ rest, e.script = StepResult.busy :: rest →
      pollNext e =
        (Poll.ready (Except.error (Error.sqlExecutionFailure
          "database is locked")),
         { e with script := rest, stepCalls := e.stepCalls + 1 })) ∧
    (∀ rest, e.script = StepResult.interrupted :: rest →
      pollNext e =
        (Poll.ready (Except.error (Error.sqlExecutionFailure
          "interrupted")),
         { e with script := rest, stepCalls := e.stepCalls + 1 })) := by
  constructor <;> intro rest hs <;> simp [pollNext, hp, Engine.step, hs]

/-- Witness for C3 at the two concrete scripted engines. -/
theorem poll_busy_interrupt_terminal_witness :
    pollNext engBusy =
      (Poll.ready (Except.error (Error.sqlExecutionFailure
        "database is locked")),
       { engBusy with script := [], stepCalls := 1 }) ∧
    pollNext engInterrupted =
      (Poll.ready (Except.error (Error.sqlExecutionFailure
        "interrupted")),
       { engInterrupted with script := [], stepCalls := 1 }) :=
  ⟨(poll_busy_interrupt_terminal engBusy rfl).1 [] rfl,
   (poll_busy_interrupt_terminal engInterrupted rfl).2 [] rfl⟩

/-- C8: a poll that reads a row off an engine whose current row has one
value per column produces a Row with names.length = values.length =
column_count, satisfying the Row invariant; the value-only construction
path produces a Row with empty names preserving the values in order. -/
theorem row_invariant (e : Engine) (vals : List CoreValue)
    (rest : List StepResult)
    (hp : e.poisoned = false)
    (hs : e.script = StepResult.rowReady vals :: rest)
    (hwf : vals.length = e.columns.length) :
    (∃ e1 r, pollNext e = (Poll.ready (Except.ok (some r)), e1) ∧
      r.values = vals ∧
      r.names.length = r.values.length ∧
      r.values.length = Row.column_count r ∧
      Row.wf r) ∧
    (∀ vs : List CoreValue,
      (Row.from_values vs).names = [] ∧
      (Row.from_values vs).values = vs ∧
      Row.wf (Row.from_values vs)) := by
  constructor
  · refine ⟨{ e with script := rest, stepCalls := e.stepCalls + 1 },
      builtRow vals e.columns, ?_, rfl, ?_, rfl, ?_⟩
    · simp [pollNext, hp, Engine.step, hs, Engine.num_columns,
        Engine.get_column_name, builtRow]
    · simp [builtRow, hwf]
    · right
      simp [builtRow, hwf]
  · intro vs
    have hid : (Row.from_values vs).values = vs := by
      have hpt : ∀ v : CoreValue,
          (match v with
            | .integer n => CoreValue.integer n
            | .null => CoreValue.null
            | .float f => CoreValue.float f
            | .text s => CoreValue.text s
            | .blob b => CoreValue.blob b) = v := by
        intro v; cases v <;> rfl
      simp [Row.from_values, hpt]
    exact ⟨rfl, hid, Or.inl rfl⟩

/-- Witness for C8 at a concrete two-column engine. -/
theorem row_invariant_witness :
    (∃ e1 r, pollNext engRowReady = (Poll.ready (Except.ok (some r)), e1) ∧
      r.values = [CoreValue.integer 5, CoreValue.text "x"] ∧
      r.names.length = r.values.length ∧
      r.values.length = Row.column_count r ∧
      Row.wf r) ∧
    (∀ vs : List CoreValue,
      (Row.from_values vs).names = [] ∧
      (Row.from_values vs).values = vs ∧
      Row.wf (Row.from_values vs)) :=
  row_invariant engRowReady [.integer 5, .text "x"] [] rfl rfl rfl

/-- C9: when the guarding mutex is poisoned, the poll completes
immediately with the MutexError failure and the engine is untouched: no
step, no drive, nothing consumed — reported, not retried. -/
theorem poll_poisoned_lock_error (e : Engine) (hp : e.poisoned = true) :
    pollNext e =
      (Poll.ready (Except.error (Error.mutexError "poisoned lock")), e) := by
  simp [pollNext, hp]

/-- Witness for C9 at a concrete poisoned engine. -/
theorem poll_poisoned_lock_error_witness :
    pollNext engPoisoned =
      (Poll.ready (Except.error (Error.mutexError "poisoned lock")),
       engPoisoned) :=
  poll_poisoned_lock_error engPoisoned rfl

end TursoRows
